import Mathlib

/-!
Verification of the `cred` command-line tool (src/main.go).

The program resolves AWS credentials, verifies them with one STS
GetCallerIdentity call, and prints shell `export`/`unset` statements
(`rootCmd`).  A subcommand `expiry` reads `AWS_SESSION_EXPIRES_AT` from the
environment, parses it as RFC3339 and prints it localized as RFC1123; a
subcommand `clear` prints `unset` statements for every managed variable.

The embedding below models:
  * the Go `time` package operations the program uses
    (`time.Parse(time.RFC3339, _)`, `Time.Format(time.RFC3339)`,
    `Time.Local`, `Time.Format(time.RFC1123)`) at second precision, with a
    `Time` value carried as broken-down fields plus a fixed zone offset in
    minutes; the civil-calendar arithmetic mirrors the cycle-splitting
    algorithm of Go's `time.absDate` / `time.daysSinceEpoch`;
  * the process environment as `String → Option String` (a variable can be
    unset, or set — possibly to the empty string — exactly as the POSIX
    environment that `os.Setenv`/`os.Getenv` manipulate);
  * Go error values as an inductive (`GoError`) distinguishing
    `smithy.GenericAPIError`, plain `fmt.Errorf` errors, and `%w` wrapping,
    with `errors.As` modelled as a search through the wrap chain;
  * the three cobra commands as pure functions of the outcomes of their
    effectful collaborators (config load, credential retrieval, the STS
    call), since those collaborators live outside this repository.
-/

/-! ## Civil calendar arithmetic (model of Go `time`'s date computations)

Day number 0 is January 1 of year 1 (proleptic Gregorian), the epoch of
Go's internal "absolute time".  `daysFromCivil` mirrors
`time.daysSinceEpoch` plus the day-of-year computation of `time.Date`;
`civilFromDays` mirrors `time.absDate`.  Divisions are floor divisions
(Lean's `/` on `Int`), which agree with Go's unsigned arithmetic on the
ranges Go can represent and extend it to negative day counts.
-/

/-- Proposition form of Go's `isLeap`: `year%4 == 0 && (year%100 != 0 || year%400 == 0)`. -/
def isLeap (y : Int) : Prop := y % 4 = 0 ∧ (y % 100 ≠ 0 ∨ y % 400 = 0)

instance (y : Int) : Decidable (isLeap y) := by unfold isLeap; infer_instance

/-- Go's `daysBefore` table: number of days in a non-leap year before month
`m` (1 = January); `dBefore 13 = 365`. -/
def dBefore (m : Int) : Int :=
  if m ≤ 1 then 0 else if m = 2 then 31 else if m = 3 then 59 else if m = 4 then 90
  else if m = 5 then 120 else if m = 6 then 151 else if m = 7 then 181 else if m = 8 then 212
  else if m = 9 then 243 else if m = 10 then 273 else if m = 11 then 304 else if m = 12 then 334
  else 365

/-- Go's `daysIn(m Month, year int)`: the number of days of month `m` in
year `year`. -/
def daysIn (m year : Int) : Int :=
  if m = 2 ∧ isLeap year then 29 else dBefore (m + 1) - dBefore m

/-- Days from January 1 of year 1 to January 1 of `year` (model of Go's
`time.daysSinceEpoch`, written with the same 400/100/4-year cycle splits). -/
def daysSinceEpochYears (year : Int) : Int :=
  let y := year - 1
  let n1 := y / 400
  let y1 := y - 400 * n1
  let n2 := y1 / 100
  let y2 := y1 - 100 * n2
  let n3 := y2 / 4
  let y3 := y2 - 4 * n3
  146097 * n1 + 36524 * n2 + 1461 * n3 + 365 * y3

/-- Day number of the civil date `(year, month, day)` (model of the date
part of Go's `time.Date`). -/
def daysFromCivil (year month day : Int) : Int :=
  daysSinceEpochYears year + dBefore month +
    (if isLeap year ∧ 3 ≤ month then 1 else 0) + (day - 1)

/-- Year and 0-based day-of-year of a day number (the cycle-splitting year
extraction of Go's `time.absDate`; `n - n / 4` is Go's `n -= n >> 2`
correction). -/
def yearYday (z : Int) : Int × Int :=
  let n1 := z / 146097
  let d1 := z - 146097 * n1
  let n2 := d1 / 36524
  let q2 := n2 - n2 / 4
  let d2 := d1 - 36524 * q2
  let n3 := d2 / 1461
  let d3 := d2 - 1461 * n3
  let n4 := d3 / 365
  let q4 := n4 - n4 / 4
  (400 * n1 + 100 * q2 + 4 * n3 + q4 + 1, d3 - 365 * q4)

/-- Month estimate of Go's `time.absDate`: guess `day/31`, then adjust by at
most one month using the `daysBefore` table. -/
def mdEstimate (day : Int) : Int × Int :=
  if day ≥ dBefore (day / 31 + 2) then (day / 31 + 2, day - dBefore (day / 31 + 2) + 1)
  else (day / 31 + 1, day - dBefore (day / 31 + 1) + 1)

/-- Month and day-of-month from a year and 0-based day-of-year, with Go
`absDate`'s handling of the leap day. -/
def monthDayFromYday (year yday : Int) : Int × Int :=
  if isLeap year ∧ yday = 59 then (2, 29)
  else mdEstimate (if isLeap year ∧ yday > 59 then yday - 1 else yday)

/-- Civil date of a day number (model of Go's `time.absDate`). -/
def civilFromDays (z : Int) : Int × Int × Int :=
  let p := yearYday z
  let md := monthDayFromYday p.1 p.2
  (p.1, md.1, md.2)

example : civilFromDays 0 = (1, 1, 1) := by decide
example : daysFromCivil 1 1 1 = 0 := by decide
example : daysFromCivil 1970 1 1 = 719162 := by decide
example : civilFromDays 719162 = (1970, 1, 1) := by decide
example : civilFromDays (719162 + 20000) = (2024, 10, 4) := by decide
example : civilFromDays (719162 - 1) = (1969, 12, 31) := by decide
example : civilFromDays (daysFromCivil 2024 2 29) = (2024, 2, 29) := by decide
example : civilFromDays (daysFromCivil 2000 2 29) = (2000, 2, 29) := by decide
example : civilFromDays (daysFromCivil 1900 3 1) = (1900, 3, 1) := by decide

set_option maxHeartbeats 1600000 in
/-- The year extracted by `yearYday` is consistent with the forward count
`daysSinceEpochYears`, and the day-of-year is in range (with day 365 only
in leap years). -/
theorem yearYday_add (z : Int) :
    daysSinceEpochYears (yearYday z).1 + (yearYday z).2 = z ∧
    0 ≤ (yearYday z).2 ∧
    (yearYday z).2 ≤ 364 + (if isLeap (yearYday z).1 then 1 else 0) := by
  unfold yearYday daysSinceEpochYears
  dsimp only
  simp only [isLeap]
  set n1 := z / 146097 with hn1
  set d1 := z - 146097 * n1 with hd1
  set n2 := d1 / 36524 with hn2
  have hb1 : 0 ≤ d1 ∧ d1 < 146097 := by omega
  have hb2 : 0 ≤ n2 ∧ n2 ≤ 4 := by omega
  obtain ⟨hb2a, hb2b⟩ := hb2
  interval_cases n2 <;>
  · set d2 := d1 - 36524 * (_ - _ / 4) with hd2
    set n3 := d2 / 1461 with hn3
    set d3 := d2 - 1461 * n3 with hd3
    set n4 := d3 / 365 with hn4
    have hb3 : 0 ≤ n4 ∧ n4 ≤ 4 := by omega
    obtain ⟨hb3a, hb3b⟩ := hb3
    interval_cases n4 <;> split_ifs <;> omega

set_option maxHeartbeats 1600000 in
/-- The month/day estimate of `mdEstimate` recomposes to the day it was
computed from, and produces a month ≥ 3 exactly for days ≥ 59 (March 1 of
a non-leap year). -/
theorem mdEstimate_spec (day : Int) (h0 : 0 ≤ day) (h1 : day ≤ 365) :
    dBefore (mdEstimate day).1 + ((mdEstimate day).2 - 1) = day ∧
    (3 ≤ (mdEstimate day).1 ↔ 59 ≤ day) := by
  unfold mdEstimate
  set m0 := day / 31 with hm0
  have hba : 0 ≤ m0 := by omega
  have hbb : m0 ≤ 11 := by omega
  interval_cases m0 <;> split_ifs <;> norm_num [dBefore] at * <;> omega

set_option maxHeartbeats 1600000 in
/-- The month and day-of-month produced by `monthDayFromYday` recompose to
the day-of-year they were computed from. -/
theorem monthDay_add (year yday : Int) (h0 : 0 ≤ yday)
    (h1 : yday ≤ 364 + (if isLeap year then 1 else 0)) :
    dBefore (monthDayFromYday year yday).1 +
      (if isLeap year ∧ 3 ≤ (monthDayFromYday year yday).1 then 1 else 0) +
      ((monthDayFromYday year yday).2 - 1) = yday := by
  unfold monthDayFromYday
  by_cases hL : isLeap year
  · rw [if_pos hL] at h1
    by_cases h59 : yday = 59
    · subst h59
      rw [if_pos (show isLeap year ∧ (59 : Int) = 59 from ⟨hL, rfl⟩)]
      norm_num [dBefore, hL]
    · rw [if_neg (fun h => h59 h.2)]
      by_cases hgt : yday > 59
      · rw [if_pos (show isLeap year ∧ yday > 59 from ⟨hL, hgt⟩)]
        have hs := mdEstimate_spec (yday - 1) (by omega) (by omega)
        rw [if_pos ⟨hL, hs.2.mpr (by omega)⟩]
        omega
      · rw [if_neg (fun (h : isLeap year ∧ yday > 59) => hgt h.2)]
        have hs := mdEstimate_spec yday h0 (by omega)
        rw [if_neg (fun (h : isLeap year ∧ 3 ≤ (mdEstimate yday).1) =>
          absurd (hs.2.mp h.2) (by omega))]
        omega
  · rw [if_neg hL] at h1
    rw [if_neg (fun (h : isLeap year ∧ yday = 59) => hL h.1)]
    rw [if_neg (fun (h : isLeap year ∧ yday > 59) => hL h.1)]
    have hs := mdEstimate_spec yday h0 (by omega)
    rw [if_neg (fun (h : isLeap year ∧ _) => hL h.1)]
    omega

set_option maxHeartbeats 1600000 in
/-- `daysFromCivil` is a left inverse of `civilFromDays`: converting a day
number to a civil date and back is the identity. -/
theorem daysFromCivil_civilFromDays (z : Int) :
    daysFromCivil (civilFromDays z).1 (civilFromDays z).2.1 (civilFromDays z).2.2 = z := by
  have h1 := yearYday_add z
  have h2 := monthDay_add (yearYday z).1 (yearYday z).2 h1.2.1 h1.2.2
  unfold civilFromDays daysFromCivil
  dsimp only
  omega


/-! ## The `time.Time` model

A Go `time.Time` as this program observes it: broken-down wall-clock
fields, a fixed zone offset in minutes and a zone abbreviation.  Both
formats the program uses (RFC3339 and RFC1123) carry second precision
only, so the model works at second precision.  `instant` converts to
seconds since the epoch; a `Zone` models a fixed-offset `time.Location`
(the machine's local zone for the purposes of `Time.Local`).
-/

structure DateTime where
  year : Int
  month : Int
  day : Int
  hour : Int
  minute : Int
  second : Int
  offset : Int
  zoneName : String
deriving DecidableEq, Repr

def ValidDT (t : DateTime) : Prop :=
  0 ≤ t.year ∧ t.year ≤ 9999 ∧ 1 ≤ t.month ∧ t.month ≤ 12 ∧
  1 ≤ t.day ∧ t.day ≤ daysIn t.month t.year ∧
  0 ≤ t.hour ∧ t.hour ≤ 23 ∧ 0 ≤ t.minute ∧ t.minute ≤ 59 ∧
  0 ≤ t.second ∧ t.second ≤ 59 ∧ -1439 ≤ t.offset ∧ t.offset ≤ 1439

instance (t : DateTime) : Decidable (ValidDT t) := by unfold ValidDT; infer_instance

def c2d (c : Char) : Option Int :=
  if '0' ≤ c ∧ c ≤ '9' then some ((c.toNat : Int) - 48) else none

def digit (n : Int) : Char := Nat.digitChar n.toNat

def pad2Chars (n : Int) : List Char := [digit (n / 10), digit (n % 10)]

def pad4Chars (n : Int) : List Char :=
  [digit (n / 1000), digit (n / 100 % 10), digit (n / 10 % 10), digit (n % 10)]

def zoneChars (off : Int) : List Char :=
  if off = 0 then ['Z']
  else (if off < 0 then '-' else '+') ::
    (pad2Chars ((if off < 0 then -off else off) / 60) ++ ':' ::
      pad2Chars ((if off < 0 then -off else off) % 60))

def rfc3339Chars (t : DateTime) : List Char :=
  pad4Chars t.year ++ '-' :: (pad2Chars t.month ++ '-' :: (pad2Chars t.day ++ 'T' ::
    (pad2Chars t.hour ++ ':' :: (pad2Chars t.minute ++ ':' ::
      (pad2Chars t.second ++ zoneChars t.offset)))))

def formatRFC3339 (t : DateTime) : String := String.mk (rfc3339Chars t)

def parseZonePart : List Char → Option Int
  | ['Z'] => some 0
  | [sg, h1, h2, ':', m1, m2] =>
    match c2d h1, c2d h2, c2d m1, c2d m2 with
    | some a, some b, some c, some d =>
      if (sg = '+' ∨ sg = '-') ∧ 10 * a + b ≤ 23 ∧ 10 * c + d ≤ 59 then
        some (if sg = '-' then -((10 * a + b) * 60 + (10 * c + d))
              else (10 * a + b) * 60 + (10 * c + d))
      else none
    | _, _, _, _ => none
  | _ => none

def stripFrac : List Char → List Char
  | '.' :: c :: rest => if c.isDigit then (c :: rest).dropWhile Char.isDigit else '.' :: c :: rest
  | l => l

def parseChars : List Char → Option DateTime
  | y1 :: y2 :: y3 :: y4 :: '-' :: mo1 :: mo2 :: '-' :: d1 :: d2 :: 'T' ::
      h1 :: h2 :: ':' :: mi1 :: mi2 :: ':' :: s1 :: s2 :: rest =>
    match c2d y1, c2d y2, c2d y3, c2d y4, c2d mo1, c2d mo2, c2d d1, c2d d2,
        c2d h1, c2d h2, c2d mi1, c2d mi2, c2d s1, c2d s2 with
    | some a, some b, some c, some d, some e, some f, some g, some h,
      some i, some j, some k, some l, some m, some n =>
      if 1 ≤ 10 * e + f ∧ 10 * e + f ≤ 12 ∧ 1 ≤ 10 * g + h ∧
          10 * g + h ≤ daysIn (10 * e + f) (1000 * a + 100 * b + 10 * c + d) ∧
          10 * i + j ≤ 23 ∧ 10 * k + l ≤ 59 ∧ 10 * m + n ≤ 59 then
        match parseZonePart (stripFrac rest) with
        | some off =>
          some ⟨1000 * a + 100 * b + 10 * c + d, 10 * e + f, 10 * g + h,
                10 * i + j, 10 * k + l, 10 * m + n, off,
                if stripFrac rest = ['Z'] then "UTC" else ""⟩
        | none => none
      else none
    | _, _, _, _, _, _, _, _, _, _, _, _, _, _ => none
  | _ => none

def parseRFC3339 (s : String) : Option DateTime := parseChars s.data

example : parseRFC3339 "2026-01-02T15:04:05Z" =
    some ⟨2026, 1, 2, 15, 4, 5, 0, "UTC"⟩ := by decide
example : parseRFC3339 "Mon, 02 Jan 2006 15:04:05 MST" = none := by decide
example : parseRFC3339 "2026-01-02T15:04:05.123+05:30" =
    some ⟨2026, 1, 2, 15, 4, 5, 330, ""⟩ := by decide
example : parseRFC3339 "2026-02-29T00:00:00Z" = none := by decide
example : parseRFC3339 "2024-02-29T23:59:59-08:00" =
    some ⟨2024, 2, 29, 23, 59, 59, -480, ""⟩ := by decide
example : formatRFC3339 ⟨2026, 1, 2, 15, 4, 5, 0, "UTC"⟩ = "2026-01-02T15:04:05Z" := by decide
example : formatRFC3339 ⟨2026, 1, 2, 15, 4, 5, -480, ""⟩ = "2026-01-02T15:04:05-08:00" := by decide

theorem c2d_digit (x : Int) (h0 : 0 ≤ x) (h1 : x < 10) : c2d (digit x) = some x := by
  have hx : x.toNat < 10 := by omega
  have hh : (x.toNat : Int) = x := by omega
  rw [show x = (x.toNat : Int) from hh.symm]
  generalize x.toNat = k at hx
  interval_cases k <;> rfl

set_option maxHeartbeats 1600000 in
theorem daysIn_le31 (m year : Int) (h1 : 1 ≤ m) (h2 : m ≤ 12) : daysIn m year ≤ 31 := by
  interval_cases m <;> norm_num [daysIn, dBefore] <;> split_ifs <;> norm_num

theorem parseZonePart_zoneChars (off : Int) (h0 : -1439 ≤ off) (h1 : off ≤ 1439) :
    parseZonePart (stripFrac (zoneChars off)) = some off ∧
    (stripFrac (zoneChars off) = ['Z'] ↔ off = 0) := by
  unfold zoneChars
  by_cases hz : off = 0
  · rw [if_pos hz]
    exact ⟨by rw [hz]; rfl, by simp [stripFrac, hz]⟩
  · rw [if_neg hz]
    by_cases hneg : off < 0
    · rw [if_pos hneg, if_pos hneg]
      unfold pad2Chars
      rw [show stripFrac ('-' :: ([digit (-off / 60 / 10), digit (-off / 60 % 10)] ++
        ':' :: [digit (-off % 60 / 10), digit (-off % 60 % 10)])) =
          '-' :: ([digit (-off / 60 / 10), digit (-off / 60 % 10)] ++
        ':' :: [digit (-off % 60 / 10), digit (-off % 60 % 10)]) from rfl]
      constructor
      · simp only [List.cons_append, List.nil_append]
        simp only [parseZonePart]
        rw [c2d_digit (-off / 60 / 10) (by omega) (by omega),
            c2d_digit (-off / 60 % 10) (by omega) (by omega),
            c2d_digit (-off % 60 / 10) (by omega) (by omega),
            c2d_digit (-off % 60 % 10) (by omega) (by omega)]
        dsimp only
        rw [if_pos ⟨Or.inr trivial, by omega, by omega⟩]
        rw [if_pos trivial]
        congr 1
        omega
      · simpa using hz
    · rw [if_neg hneg, if_neg hneg]
      unfold pad2Chars
      rw [show stripFrac ('+' :: ([digit (off / 60 / 10), digit (off / 60 % 10)] ++
        ':' :: [digit (off % 60 / 10), digit (off % 60 % 10)])) =
          '+' :: ([digit (off / 60 / 10), digit (off / 60 % 10)] ++
        ':' :: [digit (off % 60 / 10), digit (off % 60 % 10)]) from rfl]
      constructor
      · simp only [List.cons_append, List.nil_append]
        simp only [parseZonePart]
        rw [c2d_digit (off / 60 / 10) (by omega) (by omega),
            c2d_digit (off / 60 % 10) (by omega) (by omega),
            c2d_digit (off % 60 / 10) (by omega) (by omega),
            c2d_digit (off % 60 % 10) (by omega) (by omega)]
        dsimp only
        rw [if_pos ⟨Or.inl trivial, by omega, by omega⟩]
        rw [if_neg (by decide : ¬ ('+' : Char) = '-')]
        congr 1
        omega
      · simpa using hz

set_option maxHeartbeats 1600000 in
theorem parse_format_roundtrip (t : DateTime) (h : ValidDT t) :
    parseRFC3339 (formatRFC3339 t) =
      some { t with zoneName := if t.offset = 0 then "UTC" else "" } := by
  obtain ⟨hy0, hy1, hm0, hm1, hd0, hd1, hh0, hh1, hmi0, hmi1, hs0, hs1, ho0, ho1⟩ := h
  have hzone := parseZonePart_zoneChars t.offset ho0 ho1
  have hd31 : t.day ≤ 31 := le_trans hd1 (daysIn_le31 t.month t.year hm0 hm1)
  show parseChars (rfc3339Chars t) = _
  unfold rfc3339Chars pad4Chars pad2Chars
  simp only [List.cons_append, List.nil_append]
  simp only [parseChars]
  rw [c2d_digit (t.year / 1000) (by omega) (by omega),
      c2d_digit (t.year / 100 % 10) (by omega) (by omega),
      c2d_digit (t.year / 10 % 10) (by omega) (by omega),
      c2d_digit (t.year % 10) (by omega) (by omega),
      c2d_digit (t.month / 10) (by omega) (by omega),
      c2d_digit (t.month % 10) (by omega) (by omega),
      c2d_digit (t.day / 10) (by omega) (by omega),
      c2d_digit (t.day % 10) (by omega) (by omega),
      c2d_digit (t.hour / 10) (by omega) (by omega),
      c2d_digit (t.hour % 10) (by omega) (by omega),
      c2d_digit (t.minute / 10) (by omega) (by omega),
      c2d_digit (t.minute % 10) (by omega) (by omega),
      c2d_digit (t.second / 10) (by omega) (by omega),
      c2d_digit (t.second % 10) (by omega) (by omega)]
  dsimp only
  have hY : 1000 * (t.year / 1000) + 100 * (t.year / 100 % 10) + 10 * (t.year / 10 % 10) +
      t.year % 10 = t.year := by omega
  have hM : 10 * (t.month / 10) + t.month % 10 = t.month := by omega
  have hD : 10 * (t.day / 10) + t.day % 10 = t.day := by omega
  have hH : 10 * (t.hour / 10) + t.hour % 10 = t.hour := by omega
  have hMi : 10 * (t.minute / 10) + t.minute % 10 = t.minute := by omega
  have hS : 10 * (t.second / 10) + t.second % 10 = t.second := by omega
  rw [hY, hM, hD, hH, hMi, hS]
  rw [if_pos ⟨hm0, hm1, hd0, hd1, hh1, hmi1, hs1⟩]
  rw [hzone.1]
  have hzn : (if stripFrac (zoneChars t.offset) = ['Z'] then "UTC" else "") =
      (if t.offset = 0 then "UTC" else "") := by
    by_cases hz : t.offset = 0
    · rw [if_pos (hzone.2.mpr hz), if_pos hz]
    · rw [if_neg (fun hcontra => hz (hzone.2.mp hcontra)), if_neg hz]
  rw [hzn]

/-- A fixed-offset time zone: minutes east of UTC and an abbreviation. -/
structure Zone where
  offset : Int
  name : String
deriving DecidableEq, Repr

/-- Seconds since the epoch (Jan 1 of year 1, 00:00:00 UTC) of the instant
a `DateTime` denotes. -/
def instant (t : DateTime) : Int :=
  daysFromCivil t.year t.month t.day * 86400 + t.hour * 3600 + t.minute * 60 +
    t.second - t.offset * 60

/-- Broken-down fields of an instant in the given zone (model of reading a
`time.Time` through a `time.Location`). -/
def fromInstant (z : Zone) (i : Int) : DateTime :=
  let localSec := i + z.offset * 60
  let days := localSec / 86400
  let sod := localSec % 86400
  let c := civilFromDays days
  ⟨c.1, c.2.1, c.2.2, sod / 3600, sod % 3600 / 60, sod % 60, z.offset, z.name⟩

/-- Model of Go's `Time.Local()`: same instant, fields recomputed in the
local zone. -/
def toLocal (z : Zone) (t : DateTime) : DateTime := fromInstant z (instant t)

/-- Conversion to a zone preserves the instant. -/
theorem instant_fromInstant (z : Zone) (i : Int) : instant (fromInstant z i) = i := by
  unfold fromInstant instant
  dsimp only
  rw [daysFromCivil_civilFromDays]
  omega

/-- Go weekday abbreviations; day 0 of the model (Jan 1 of year 1) is a
Monday, so the weekday index of day `z` is `(z + 1) % 7` with 0 = Sunday. -/
def weekdayName (w : Int) : String :=
  if w = 0 then "Sun" else if w = 1 then "Mon" else if w = 2 then "Tue"
  else if w = 3 then "Wed" else if w = 4 then "Thu" else if w = 5 then "Fri" else "Sat"

/-- Go month abbreviations. -/
def monthName (m : Int) : String :=
  if m = 1 then "Jan" else if m = 2 then "Feb" else if m = 3 then "Mar"
  else if m = 4 then "Apr" else if m = 5 then "May" else if m = 6 then "Jun"
  else if m = 7 then "Jul" else if m = 8 then "Aug" else if m = 9 then "Sep"
  else if m = 10 then "Oct" else if m = 11 then "Nov" else "Dec"

/-- The zone abbreviation Go's `MST` layout element prints: the zone name,
or the numeric `-0700` form when the name is empty. -/
def zoneSuffix (t : DateTime) : String :=
  if t.zoneName ≠ "" then t.zoneName
  else String.mk ((if t.offset < 0 then '-' else '+') ::
    (pad2Chars ((if t.offset < 0 then -t.offset else t.offset) / 60) ++
      pad2Chars ((if t.offset < 0 then -t.offset else t.offset) % 60)))

/-- Model of `Time.Format(time.RFC1123)`, layout
`Mon, 02 Jan 2006 15:04:05 MST`. -/
def formatRFC1123 (t : DateTime) : String :=
  weekdayName ((daysFromCivil t.year t.month t.day + 1) % 7) ++ ", " ++
    String.mk (pad2Chars t.day) ++ " " ++ monthName t.month ++ " " ++
    String.mk (pad4Chars t.year) ++ " " ++ String.mk (pad2Chars t.hour) ++ ":" ++
    String.mk (pad2Chars t.minute) ++ ":" ++ String.mk (pad2Chars t.second) ++ " " ++
    zoneSuffix t

example : formatRFC1123 ⟨2026, 1, 2, 15, 4, 5, 0, "UTC"⟩ =
    "Fri, 02 Jan 2026 15:04:05 UTC" := by decide
example : formatRFC1123 (toLocal ⟨-480, "PST"⟩ ⟨2026, 1, 2, 15, 4, 5, 0, "UTC"⟩) =
    "Fri, 02 Jan 2026 07:04:05 PST" := by decide

/-! ## The program (model of src/main.go) -/

/-- The seven environment variable names managed by the tool. -/
def accessKeyID : String := "AWS_ACCESS_KEY_ID"

def secretAccessKey : String := "AWS_SECRET_ACCESS_KEY"

def sessionToken : String := "AWS_SESSION_TOKEN"

def sessionExpiresAt : String := "AWS_SESSION_EXPIRES_AT"

def accountID : String := "AWS_ACCOUNT_ID"

def defaultRegion : String := "AWS_DEFAULT_REGION"

def region : String := "AWS_REGION"

/-- Go `allVars()`. -/
def allVars : List String :=
  [accessKeyID, secretAccessKey, sessionToken, sessionExpiresAt, accountID,
   defaultRegion, region]

/-- Go `set(key, val)`: the string `key=val`.  (Named `setStmt` here because
plain `set` is ambiguous with a core library name.) -/
def setStmt (key val : String) : String := key ++ "=" ++ val

/-- Go `unset(key)`: the string `unset key;`. -/
def unset (key : String) : String := "unset " ++ key ++ ";"

/-- Process environment: a variable is either unset (`none`) or set to a
string value (possibly `some ""`). -/
abbrev Env : Type := String → Option String

/-- Model of `os.Setenv`. -/
def osSetenv (env : Env) (key val : String) : Env :=
  fun k => if k = key then some val else env k

/-- Model of `os.Getenv`: the empty string when the variable is unset. -/
def osGetenv (env : Env) (key : String) : String := (env key).getD ""

/-- Model of a Go `error` value: a `smithy.GenericAPIError`, a plain
`fmt.Errorf` message, or a `fmt.Errorf(".. %w", cause)` wrapper. -/
inductive GoError where
  | api (code msg : String)
  | simple (msg : String)
  | wrapped (msg : String) (cause : GoError)
deriving DecidableEq, Repr

/-- Model of `errors.As(err, &apiErr)` for `*smithy.GenericAPIError`:
search the wrap chain for a structured API error and return its code and
message. -/
def errorsAsAPI : GoError → Option (String × String)
  | .api code msg => some (code, msg)
  | .simple _ => none
  | .wrapped _ cause => errorsAsAPI cause

/-- The fields of `sts.GetCallerIdentityOutput` the program touches; both
are pointers in Go, hence `Option`. -/
structure GetCallerIdentityOutput where
  Account : Option String
  Arn : Option String
deriving DecidableEq, Repr

/-- Model of `getCallerIdentity` (src/main.go lines 51–62) as a function of
the outcome of the wrapped STS call: on success the output is passed
through; on failure a `GenericAPIError` found by `errors.As` is rendered as
`Invalid credentials: <code>: <message>` (a plain error, `%s` verbs), any
other error is wrapped as `Invalid credentials: %w`. -/
def getCallerIdentity (res : Except GoError GetCallerIdentityOutput) :
    Except GoError GetCallerIdentityOutput :=
  match res with
  | .ok data => .ok data
  | .error err =>
    match errorsAsAPI err with
    | some p => .error (.simple ("Invalid credentials: " ++ p.1 ++ ": " ++ p.2))
    | none => .error (.wrapped "Invalid credentials" err)

/-- The fields of `aws.Credentials` the program reads. -/
structure Credentials where
  AccessKeyID : String
  SecretAccessKey : String
  SessionToken : String
  Expires : DateTime
  AccountID : String
deriving DecidableEq, Repr

/-- The field of `aws.Config` the program reads. -/
structure Config where
  Region : String
deriving DecidableEq, Repr

/-- Model of Go `strings.Join`. -/
def joinSep (sep : String) : List String → String
  | [] => ""
  | [s] => s
  | s :: rest => s ++ sep ++ joinSep sep rest

/-- The `exports` and `unsets` lists built by `rootCmd` (src/main.go lines
95–128).  Go reads `*data.Account` without a nil check when
`creds.AccountID` is empty; that dereference is modelled by the outer
`match`, with `none` standing for the nil-pointer panic. -/
def buildLists (creds : Credentials) (cfgRegion : String)
    (data : GetCallerIdentityOutput) : Option (List String × List String) :=
  match (if creds.AccountID ≠ "" then some creds.AccountID else data.Account) with
  | none => none
  | some acct =>
    let exports := [setStmt accessKeyID creds.AccessKeyID,
                    setStmt secretAccessKey creds.SecretAccessKey,
                    setStmt accountID acct]
    let pr := if cfgRegion ≠ "" then
        (exports ++ [setStmt defaultRegion cfgRegion, setStmt region cfgRegion], ([] : List String))
      else (exports, [unset defaultRegion, unset region])
    let pt := if creds.SessionToken ≠ "" then
        (pr.1 ++ [setStmt sessionToken creds.SessionToken,
                  setStmt sessionExpiresAt (formatRFC3339 creds.Expires)], pr.2)
      else (pr.1, pr.2 ++ [unset sessionToken, unset sessionExpiresAt])
    some pt

/-- The string `rootCmd` prints (src/main.go lines 130–134). -/
def renderOutput (exports unsets : List String) : String :=
  let base := "export " ++ joinSep " " exports ++ "\n"
  if unsets.length > 0 then joinSep "\n" unsets ++ "\n" ++ base else base

/-- Result of a `rootCmd` run: printed output, a returned error, or a
nil-pointer dereference panic. -/
inductive Outcome where
  | ok (out : String)
  | fail (err : GoError)
  | nilDeref
deriving DecidableEq, Repr

/-- Model of the root command (src/main.go lines 64–138) as a function of
the outcomes of its three effectful collaborators: `config.LoadDefaultConfig`,
`cfg.Credentials.Retrieve`, and the raw STS `GetCallerIdentity` call. -/
def rootCmd (cfgRes : Except GoError Config) (credsRes : Except GoError Credentials)
    (idRes : Except GoError GetCallerIdentityOutput) : Outcome :=
  match cfgRes with
  | .error err => .fail err
  | .ok cfg =>
    match credsRes with
    | .error err => .fail err
    | .ok creds =>
      match getCallerIdentity idRes with
      | .error err => .fail err
      | .ok data =>
        match buildLists creds cfg.Region data with
        | none => .nilDeref
        | some lists => .ok (renderOutput lists.1 lists.2)

/-- The `os.Setenv(key, "")` loop of `rootCmd` (src/main.go lines 76–78). -/
def clearEnvVarsLoop (env : Env) : Env :=
  allVars.foldl (fun e key => osSetenv e key "") env

/-- Model of the `expiry` subcommand (src/main.go lines 140–161) as a
function of the process environment and the machine's local zone; the `ok`
value is the line it prints. -/
def expiryCmd (env : Env) (loc : Zone) : Except String String :=
  if osGetenv env accessKeyID = "" then
    .error "AWS credentials are not set as environment variables"
  else if osGetenv env sessionToken = "" then
    .error "AWS credentials in environment variables are not temporary"
  else if osGetenv env sessionExpiresAt = "" then
    .error "AWS credentials expiration time has not been recorded in your environment"
  else
    match parseRFC3339 (osGetenv env sessionExpiresAt) with
    | none =>
      .error "AWS credentials expiration time has not been properly recorded in your environment"
    | some expires => .ok (formatRFC1123 (toLocal loc expires))

/-- The `unsets` list built by the `clear` subcommand (src/main.go lines
168–172). -/
def clearUnsets : List String := allVars.foldl (fun u key => u ++ [unset key]) []

/-- What the `clear` subcommand prints: `strings.Join(unsets, "\n")` plus
`fmt.Println`'s trailing newline. -/
def clearCmdOutput : String := joinSep "\n" clearUnsets ++ "\n"

/-- The `clear` subcommand always succeeds with that output. -/
def clearCmd : Except GoError String := .ok clearCmdOutput

/-! ## A small model of shell evaluation of the printed statements -/

/-- Strip one trailing `;` from a list of characters (and require it). -/
def stripSemicolon : List Char → Option (List Char)
  | [] => none
  | [';'] => some []
  | c :: rest => (stripSemicolon rest).map (fun l => c :: l)

/-- Effect of one printed line on the environment: a line `unset K;`
removes `K`; any other line is ignored by this model. -/
def evalLine (env : Env) (line : String) : Env :=
  match line.data with
  | 'u' :: 'n' :: 's' :: 'e' :: 't' :: ' ' :: rest =>
    match stripSemicolon rest with
    | some key => fun k => if k.data = key then none else env k
    | none => env
  | _ => env

/-- Evaluate a sequence of printed lines left to right. -/
def shellEval (env : Env) (lines : List String) : Env := lines.foldl evalLine env

/-- Split a character list at newlines (the lines of a printed string). -/
def splitNl : List Char → List (List Char)
  | [] => [[]]
  | c :: rest =>
    if c = '\n' then [] :: splitNl rest
    else
      match splitNl rest with
      | [] => [[c]]
      | h :: tl => (c :: h) :: tl

/-! ## Helper lemmas about `set` statements -/

theorem keyed_append_inj (k1 : List Char) : ∀ (k2 v1 v2 : List Char),
    '=' ∉ k1 → '=' ∉ k2 → k1 ++ '=' :: v1 = k2 ++ '=' :: v2 → k1 = k2 ∧ v1 = v2 := by
  induction k1 with
  | nil =>
    intro k2 v1 v2 _ h2 h
    cases k2 with
    | nil => simpa using h
    | cons c t =>
      exfalso
      injection h with hc _
      exact h2 (hc ▸ List.mem_cons_self c t)
  | cons c t ih =>
    intro k2 v1 v2 h1 h2 h
    cases k2 with
    | nil =>
      exfalso
      injection h with hc _
      exact h1 (hc ▸ List.mem_cons_self c t)
    | cons c2 t2 =>
      injection h with hc htail
      obtain ⟨hk, hv⟩ := ih t2 v1 v2 (fun hm => h1 (List.mem_cons_of_mem c hm))
        (fun hm => h2 (List.mem_cons_of_mem c2 hm)) htail
      exact ⟨by rw [hc, hk], hv⟩

theorem data_setStmt (k v : String) : (setStmt k v).data = k.data ++ '=' :: v.data := by
  simp [setStmt, String.data_append]

/-- Two `set` statements with distinct `=`-free keys are distinct strings,
whatever the values. -/
theorem set_ne (k1 k2 v1 v2 : String) (h1 : '=' ∉ k1.data) (h2 : '=' ∉ k2.data)
    (hk : k1 ≠ k2) : setStmt k1 v1 ≠ setStmt k2 v2 := by
  intro h
  apply hk
  have hd : (setStmt k1 v1).data = (setStmt k2 v2).data := by rw [h]
  rw [data_setStmt, data_setStmt] at hd
  have := (keyed_append_inj k1.data k2.data v1.data v2.data h1 h2 hd).1
  cases k1
  cases k2
  exact congrArg String.mk this

/-- Characterization of a successful `buildLists` run: the exports are the
two key lines, the account line, and conditionally the region and session
lines; the unsets are the complementary statements. -/
theorem buildLists_some (creds : Credentials) (cfgRegion : String)
    (data : GetCallerIdentityOutput) (lists : List String × List String)
    (hb : buildLists creds cfgRegion data = some lists) :
    lists.1 = [setStmt accessKeyID creds.AccessKeyID,
        setStmt secretAccessKey creds.SecretAccessKey,
        setStmt accountID (if creds.AccountID ≠ "" then creds.AccountID
          else data.Account.getD "")] ++
      (if cfgRegion ≠ "" then [setStmt defaultRegion cfgRegion, setStmt region cfgRegion]
        else []) ++
      (if creds.SessionToken ≠ "" then [setStmt sessionToken creds.SessionToken,
        setStmt sessionExpiresAt (formatRFC3339 creds.Expires)] else []) ∧
    lists.2 = (if cfgRegion ≠ "" then [] else [unset defaultRegion, unset region]) ++
      (if creds.SessionToken ≠ "" then []
        else [unset sessionToken, unset sessionExpiresAt]) := by
  unfold buildLists at hb
  by_cases hAcc : creds.AccountID ≠ ""
  · rw [if_pos hAcc] at hb
    dsimp only at hb
    rw [if_pos hAcc]
    injection hb with hb
    subst hb
    split_ifs <;> simp
  · rw [if_neg hAcc] at hb
    rw [if_neg hAcc]
    cases hA : data.Account with
    | none =>
      rw [hA] at hb
      simp at hb
    | some acct =>
      rw [hA] at hb
      dsimp only at hb
      injection hb with hb
      subst hb
      split_ifs <;> simp

/-! ## Concrete inputs used by witnesses and counterexamples -/

def utcZone : Zone := ⟨0, "UTC"⟩

def envNoneW : Env := fun _ => none

def envStale : Env := fun _ => some "stale"

def envRFC1123 : Env := fun k =>
  if k = accessKeyID then some "X" else if k = sessionToken then some "Y"
  else if k = sessionExpiresAt then some "Mon, 02 Jan 2006 15:04:05 MST" else none

def envRFC3339 : Env := fun k =>
  if k = accessKeyID then some "X" else if k = sessionToken then some "Y"
  else if k = sessionExpiresAt then some "2026-01-02T15:04:05Z" else none

def dtW : DateTime := ⟨2026, 1, 2, 15, 4, 5, 0, "UTC"⟩

def credsW : Credentials := ⟨"AKIAEXAMPLEKEY", "secretExample", "tokenY", dtW, ""⟩

def dataW : GetCallerIdentityOutput :=
  ⟨some "123456789012", some "arn:aws:iam::123456789012:user/me"⟩

def listsW : List String × List String := (buildLists credsW "" dataW).getD ([], [])

/-- The environment after evaluating the export statements the root command
writes for a credential set (the three session-related variables, which is
what the expiry command reads back). -/
def envOfExport (creds : Credentials) : Env := fun k =>
  if k = accessKeyID then some creds.AccessKeyID
  else if k = sessionToken then some creds.SessionToken
  else if k = sessionExpiresAt then some (formatRFC3339 creds.Expires) else none

/-! ## The claims -/

/-- C1: for every environment state the expiry command performs its
precondition checks in a fixed order with the first failure winning —
access key unset/empty first ("not set"), then session token ("not
temporary"), then missing expiry ("not recorded"), then unparseable expiry
("not properly recorded") — and the four user-facing messages are pairwise
distinct. -/
theorem expiry_check_order (env : Env) (loc : Zone) :
    (osGetenv env accessKeyID = "" →
      expiryCmd env loc = .error "AWS credentials are not set as environment variables") ∧
    (osGetenv env accessKeyID ≠ "" → osGetenv env sessionToken = "" →
      expiryCmd env loc =
        .error "AWS credentials in environment variables are not temporary") ∧
    (osGetenv env accessKeyID ≠ "" → osGetenv env sessionToken ≠ "" →
      osGetenv env sessionExpiresAt = "" →
      expiryCmd env loc =
        .error "AWS credentials expiration time has not been recorded in your environment") ∧
    (osGetenv env accessKeyID ≠ "" → osGetenv env sessionToken ≠ "" →
      osGetenv env sessionExpiresAt ≠ "" →
      parseRFC3339 (osGetenv env sessionExpiresAt) = none →
      expiryCmd env loc =
        .error "AWS credentials expiration time has not been properly recorded in your environment") ∧
    ((("AWS credentials are not set as environment variables" : String) ≠
        "AWS credentials in environment variables are not temporary") ∧
      (("AWS credentials are not set as environment variables" : String) ≠
        "AWS credentials expiration time has not been recorded in your environment") ∧
      (("AWS credentials are not set as environment variables" : String) ≠
        "AWS credentials expiration time has not been properly recorded in your environment") ∧
      (("AWS credentials in environment variables are not temporary" : String) ≠
        "AWS credentials expiration time has not been recorded in your environment") ∧
      (("AWS credentials in environment variables are not temporary" : String) ≠
        "AWS credentials expiration time has not been properly recorded in your environment") ∧
      (("AWS credentials expiration time has not been recorded in your environment" : String) ≠
        "AWS credentials expiration time has not been properly recorded in your environment")) := by
  refine ⟨?_, ?_, ?_, ?_, by decide⟩
  · intro h1
    unfold expiryCmd
    rw [if_pos h1]
  · intro h1 h2
    unfold expiryCmd
    rw [if_neg h1, if_pos h2]
  · intro h1 h2 h3
    unfold expiryCmd
    rw [if_neg h1, if_neg h2, if_pos h3]
  · intro h1 h2 h3 h4
    unfold expiryCmd
    rw [if_neg h1, if_neg h2, if_neg h3, h4]

theorem expiry_check_order_witness :
    expiryCmd envNoneW utcZone =
      .error "AWS credentials are not set as environment variables" ∧
    expiryCmd envRFC1123 utcZone =
      .error "AWS credentials expiration time has not been properly recorded in your environment" :=
  ⟨(expiry_check_order envNoneW utcZone).1 rfl,
    (expiry_check_order envRFC1123 utcZone).2.2.2.1 (by decide) (by decide) (by decide)
      (by decide)⟩

/-- C2: for every resolved credential set, when the session token is
non-empty the export list contains export statements for the session token
and expiry variables (the latter formatted as RFC3339); when it is empty
the unset list contains unset statements for both and the export list
contains no export statement for either key. -/
theorem export_session_token_expiry (creds : Credentials) (cfgRegion : String)
    (data : GetCallerIdentityOutput) (lists : List String × List String)
    (hb : buildLists creds cfgRegion data = some lists) :
    (creds.SessionToken ≠ "" →
      setStmt sessionToken creds.SessionToken ∈ lists.1 ∧
      setStmt sessionExpiresAt (formatRFC3339 creds.Expires) ∈ lists.1) ∧
    (creds.SessionToken = "" →
      unset sessionToken ∈ lists.2 ∧ unset sessionExpiresAt ∈ lists.2 ∧
      (∀ v, setStmt sessionToken v ∉ lists.1) ∧
      (∀ v, setStmt sessionExpiresAt v ∉ lists.1)) := by
  obtain ⟨h1, h2⟩ := buildLists_some creds cfgRegion data lists hb
  constructor
  · intro ht
    rw [h1, if_pos ht]
    constructor <;> simp
  · intro ht
    have htn : ¬ creds.SessionToken ≠ "" := fun hc => hc ht
    refine ⟨?_, ?_, ?_, ?_⟩
    · rw [h2, if_neg htn]
      simp
    · rw [h2, if_neg htn]
      simp
    · intro v hv
      rw [h1, if_neg htn, List.append_nil] at hv
      rcases List.mem_append.mp hv with hv | hv
      · simp only [List.mem_cons, List.not_mem_nil, or_false] at hv
        rcases hv with hv | hv | hv
        · exact set_ne sessionToken accessKeyID v _ (by decide) (by decide) (by decide) hv
        · exact set_ne sessionToken secretAccessKey v _ (by decide) (by decide) (by decide) hv
        · exact set_ne sessionToken accountID v _ (by decide) (by decide) (by decide) hv
      · split_ifs at hv
        · simp only [List.mem_cons, List.not_mem_nil, or_false] at hv
          rcases hv with hv | hv
          · exact set_ne sessionToken defaultRegion v _ (by decide) (by decide) (by decide) hv
          · exact set_ne sessionToken region v _ (by decide) (by decide) (by decide) hv
        · simp at hv
    · intro v hv
      rw [h1, if_neg htn, List.append_nil] at hv
      rcases List.mem_append.mp hv with hv | hv
      · simp only [List.mem_cons, List.not_mem_nil, or_false] at hv
        rcases hv with hv | hv | hv
        · exact set_ne sessionExpiresAt accessKeyID v _ (by decide) (by decide) (by decide) hv
        · exact set_ne sessionExpiresAt secretAccessKey v _ (by decide) (by decide) (by decide) hv
        · exact set_ne sessionExpiresAt accountID v _ (by decide) (by decide) (by decide) hv
      · split_ifs at hv
        · simp only [List.mem_cons, List.not_mem_nil, or_false] at hv
          rcases hv with hv | hv
          · exact set_ne sessionExpiresAt defaultRegion v _ (by decide) (by decide) (by decide) hv
          · exact set_ne sessionExpiresAt region v _ (by decide) (by decide) (by decide) hv
        · simp at hv

theorem export_session_token_expiry_witness :
    setStmt sessionToken credsW.SessionToken ∈ listsW.1 ∧
    setStmt sessionExpiresAt (formatRFC3339 credsW.Expires) ∈ listsW.1 :=
  (export_session_token_expiry credsW "" dataW listsW (by decide)).1 (by decide)

/-- C3: for every resolved credential set, when a region is configured the
export list exports both the default-region and the region variable with
the same configured value; when no region is configured the unset list
contains explicit unset statements for both, so neither is ever left
unresolved. -/
theorem export_region_pair (creds : Credentials) (cfgRegion : String)
    (data : GetCallerIdentityOutput) (lists : List String × List String)
    (hb : buildLists creds cfgRegion data = some lists) :
    (cfgRegion ≠ "" →
      setStmt defaultRegion cfgRegion ∈ lists.1 ∧ setStmt region cfgRegion ∈ lists.1) ∧
    (cfgRegion = "" →
      unset defaultRegion ∈ lists.2 ∧ unset region ∈ lists.2) := by
  obtain ⟨h1, h2⟩ := buildLists_some creds cfgRegion data lists hb
  constructor
  · intro hr
    rw [h1, if_pos hr]
    constructor <;> simp
  · intro hr
    have hrn : ¬ cfgRegion ≠ "" := fun hc => hc hr
    rw [h2, if_neg hrn]
    constructor <;> simp

theorem export_region_pair_witness :
    unset defaultRegion ∈ listsW.2 ∧ unset region ∈ listsW.2 :=
  (export_region_pair credsW "" dataW listsW (by decide)).2 rfl

/-- C5: for every resolved credential set the export list always exports
the access key id and the secret key, and exports the account id variable
with the credential set's own account id when that field is non-empty, and
otherwise with the account returned by the identity check. -/
theorem export_account_and_keys (creds : Credentials) (cfgRegion : String)
    (data : GetCallerIdentityOutput) (lists : List String × List String)
    (hb : buildLists creds cfgRegion data = some lists) :
    setStmt accessKeyID creds.AccessKeyID ∈ lists.1 ∧
    setStmt secretAccessKey creds.SecretAccessKey ∈ lists.1 ∧
    (creds.AccountID ≠ "" → setStmt accountID creds.AccountID ∈ lists.1) ∧
    (creds.AccountID = "" → ∀ acct, data.Account = some acct →
      setStmt accountID acct ∈ lists.1) := by
  obtain ⟨h1, _⟩ := buildLists_some creds cfgRegion data lists hb
  refine ⟨?_, ?_, ?_, ?_⟩
  · rw [h1]
    simp
  · rw [h1]
    simp
  · intro hA
    rw [h1, if_pos hA]
    simp
  · intro hA acct hacct
    rw [h1, if_neg (fun hc => hc hA), hacct]
    simp

theorem export_account_and_keys_witness :
    setStmt accountID "123456789012" ∈ listsW.1 :=
  (export_account_and_keys credsW "" dataW listsW (by decide)).2.2.2 rfl "123456789012" rfl

/-- C6: every failing invocation of the export command propagates a
config-load or credential-resolution failure unwrapped; an identity-check
failure is wrapped: a structured API error found by `errors.As` becomes the
plain message `Invalid credentials: code: message`, anything else is
wrapped as `Invalid credentials: %w`; and the command prints output only
when all three collaborators succeeded. -/
theorem rootCmd_error_paths (cfgRes : Except GoError Config)
    (credsRes : Except GoError Credentials)
    (idRes : Except GoError GetCallerIdentityOutput) :
    (∀ e, cfgRes = .error e → rootCmd cfgRes credsRes idRes = .fail e) ∧
    (∀ cfg e, cfgRes = .ok cfg → credsRes = .error e →
      rootCmd cfgRes credsRes idRes = .fail e) ∧
    (∀ cfg creds e, cfgRes = .ok cfg → credsRes = .ok creds → idRes = .error e →
      rootCmd cfgRes credsRes idRes =
        .fail (match errorsAsAPI e with
          | some p => .simple ("Invalid credentials: " ++ p.1 ++ ": " ++ p.2)
          | none => .wrapped "Invalid credentials" e)) ∧
    (∀ out, rootCmd cfgRes credsRes idRes = .ok out →
      (∃ cfg, cfgRes = .ok cfg) ∧ (∃ creds, credsRes = .ok creds) ∧
      (∃ data, idRes = .ok data)) := by
  refine ⟨?_, ?_, ?_, ?_⟩
  · intro e he
    subst he
    rfl
  · intro cfg e hc he
    subst hc
    subst he
    rfl
  · intro cfg creds e hc hcr he
    subst hc
    subst hcr
    subst he
    unfold rootCmd getCallerIdentity
    dsimp only
    cases errorsAsAPI e <;> rfl
  · intro out hout
    cases cfgRes with
    | error e => simp [rootCmd] at hout
    | ok cfg =>
      cases credsRes with
      | error e => simp [rootCmd] at hout
      | ok creds =>
        cases idRes with
        | error e =>
          exfalso
          unfold rootCmd getCallerIdentity at hout
          dsimp only at hout
          cases hE : errorsAsAPI e <;> rw [hE] at hout <;> simp at hout
        | ok data => exact ⟨⟨cfg, rfl⟩, ⟨creds, rfl⟩, ⟨data, rfl⟩⟩

theorem rootCmd_error_paths_witness :
    rootCmd (.error (.simple "no config")) (.ok credsW) (.ok dataW) =
      .fail (.simple "no config") ∧
    rootCmd (.ok ⟨"us-east-1"⟩) (.ok credsW)
        (.error (.api "AccessDenied" "not authorized")) =
      .fail (.simple "Invalid credentials: AccessDenied: not authorized") ∧
    rootCmd (.ok ⟨"us-east-1"⟩) (.ok credsW)
        (.error (.simple "dial tcp: timeout")) =
      .fail (.wrapped "Invalid credentials" (.simple "dial tcp: timeout")) :=
  ⟨(rootCmd_error_paths _ _ _).1 _ rfl,
    (rootCmd_error_paths _ _ _).2.2.1 _ _ _ rfl rfl rfl,
    (rootCmd_error_paths _ _ _).2.2.1 _ _ _ rfl rfl rfl⟩

/-- The account branch of `buildLists` is the only way it can fail, and it
fails exactly when the credential set's account id is empty and the
identity output's `Account` pointer is nil. -/
theorem buildLists_none_iff (creds : Credentials) (cfgRegion : String)
    (data : GetCallerIdentityOutput) :
    buildLists creds cfgRegion data = none ↔
      (creds.AccountID = "" ∧ data.Account = none) := by
  unfold buildLists
  by_cases hA : creds.AccountID ≠ ""
  · rw [if_pos hA]
    dsimp only
    constructor
    · intro h
      exact absurd h (by simp)
    · intro hc
      exact absurd hc.1 hA
  · rw [if_neg hA]
    have hA' : creds.AccountID = "" := by tauto
    cases hD : data.Account with
    | none => simp [hA']
    | some a =>
      dsimp only
      simp

/-- C9: the export command reads the identity result's account field
through a pointer dereference with no nil check whenever the credential
set's account id is empty; it panics exactly when that dereferenced field
is nil, so it is safe precisely under the precondition that a successful
identity check carries a non-nil account. -/
theorem rootCmd_nil_deref (cfg : Config) (creds : Credentials)
    (data : GetCallerIdentityOutput) :
    rootCmd (.ok cfg) (.ok creds) (.ok data) = .nilDeref ↔
      (creds.AccountID = "" ∧ data.Account = none) := by
  unfold rootCmd getCallerIdentity
  dsimp only
  rw [← buildLists_none_iff creds cfg.Region data]
  cases hB : buildLists creds cfg.Region data with
  | none => simp
  | some lists => simp

/-- C7: the clear command never fails, its statement list is exactly one
unset statement per managed variable (seven in total, one occurrence each),
and evaluating the printed lines (the statement list joined by newlines,
plus the trailing newline) over any prior environment leaves every one of
the seven managed variables unset. -/
theorem clear_cmd_spec :
    clearCmd = .ok clearCmdOutput ∧
    clearUnsets = allVars.map unset ∧
    clearUnsets.length = 7 ∧
    (∀ k, k ∈ allVars → clearUnsets.count (unset k) = 1) ∧
    splitNl clearCmdOutput.data = clearUnsets.map String.data ++ [[]] ∧
    (∀ env : Env, ∀ k, k ∈ allVars →
      shellEval env ((splitNl clearCmdOutput.data).map String.mk) k = none) := by
  refine ⟨rfl, by decide, by decide, ?_, by decide, ?_⟩
  · intro k hk
    fin_cases hk <;> decide
  · intro env k hk
    fin_cases hk <;> rfl

theorem clear_cmd_spec_witness :
    shellEval envStale ((splitNl clearCmdOutput.data).map String.mk) "AWS_SESSION_TOKEN" =
      none :=
  clear_cmd_spec.2.2.2.2.2 envStale "AWS_SESSION_TOKEN" (by decide)

/-- C8 counterexample: the root command's pre-resolution loop calls
`os.Setenv(key, "")`, which leaves each managed variable present with an
empty value, not unset; after the loop over an environment where every
variable held a stale value, the access key variable is still set. -/
theorem clear_env_not_unset :
    clearEnvVarsLoop envStale accessKeyID = some "" ∧
    clearEnvVarsLoop envStale accessKeyID ≠ none := by
  constructor
  · rfl
  · intro h
    simp [clearEnvVarsLoop, allVars, osSetenv, envStale, accessKeyID, secretAccessKey,
      sessionToken, sessionExpiresAt, accountID, defaultRegion, region] at h

/-- C8 (amended): before credential resolution begins, the export command
overwrites every one of the seven managed variables with the empty string
(so reads through `os.Getenv` see no stale value), though the variables
remain present in the process environment rather than unset. -/
theorem clear_env_sets_empty (env : Env) (k : String) (hk : k ∈ allVars) :
    clearEnvVarsLoop env k = some "" := by
  fin_cases hk <;> rfl

theorem clear_env_sets_empty_witness :
    clearEnvVarsLoop envStale "AWS_REGION" = some "" :=
  clear_env_sets_empty envStale "AWS_REGION" (by decide)

/-- C4 counterexample: with the access key set to `X`, the session token to
`Y`, and the expiry variable holding the RFC1123 timestamp
`Mon, 02 Jan 2006 15:04:05 MST`, the expiry command does not succeed: the
code parses the variable with the RFC3339 layout, so it rejects the value
and reports the "not properly recorded" error. -/
theorem expiry_rfc1123_rejected :
    expiryCmd envRFC1123 utcZone =
      .error "AWS credentials expiration time has not been properly recorded in your environment" := by
  rfl

/-- C4 (amended): when the access key variable is `X`, the session token
variable is `Y`, and the expiry variable holds a timestamp in RFC3339 form
(the layout the code actually parses), the expiry command succeeds and
prints that same instant converted to local time in RFC1123 form. -/
theorem expiry_rfc3339_local (env : Env) (loc : Zone) (t : DateTime)
    (hak : osGetenv env accessKeyID = "X") (htok : osGetenv env sessionToken = "Y")
    (hexp : parseRFC3339 (osGetenv env sessionExpiresAt) = some t) :
    expiryCmd env loc = .ok (formatRFC1123 (toLocal loc t)) ∧
    instant (toLocal loc t) = instant t := by
  have hne : osGetenv env sessionExpiresAt ≠ "" := by
    intro hempty
    rw [hempty] at hexp
    exact Option.noConfusion ((show parseRFC3339 "" = none from rfl) ▸ hexp)
  constructor
  · unfold expiryCmd
    rw [if_neg (by rw [hak]; decide), if_neg (by rw [htok]; decide), if_neg hne, hexp]
  · exact instant_fromInstant loc (instant t)

theorem expiry_rfc3339_local_witness :
    expiryCmd envRFC3339 utcZone = .ok (formatRFC1123 (toLocal utcZone dtW)) ∧
    instant (toLocal utcZone dtW) = instant dtW :=
  expiry_rfc3339_local envRFC3339 utcZone dtW rfl rfl rfl

/-- C10: round trip between the two commands.  For every credential set
with a session token (and an expiry whose fields are within the ranges the
RFC3339 layout can represent), the expiry string the export command writes
is accepted by the expiry command's parser, the parsed value denotes the
same instant that was recorded, and the expiry command then prints that
instant converted to local time, which again denotes the recorded
instant. -/
theorem export_expiry_roundtrip (creds : Credentials) (cfgRegion : String)
    (data : GetCallerIdentityOutput) (lists : List String × List String) (loc : Zone)
    (hb : buildLists creds cfgRegion data = some lists)
    (hv : ValidDT creds.Expires) (htok : creds.SessionToken ≠ "")
    (hak : creds.AccessKeyID ≠ "") :
    setStmt sessionExpiresAt (formatRFC3339 creds.Expires) ∈ lists.1 ∧
    ∃ t, parseRFC3339 (formatRFC3339 creds.Expires) = some t ∧
      instant t = instant creds.Expires ∧
      expiryCmd (envOfExport creds) loc = .ok (formatRFC1123 (toLocal loc t)) ∧
      instant (toLocal loc t) = instant creds.Expires := by
  have h1 := (buildLists_some creds cfgRegion data lists hb).1
  have hrt := parse_format_roundtrip creds.Expires hv
  constructor
  · rw [h1, if_pos htok]
    simp
  · refine ⟨{ creds.Expires with zoneName := if creds.Expires.offset = 0 then "UTC" else "" },
      hrt, rfl, ?_, ?_⟩
    · have hgak : osGetenv (envOfExport creds) accessKeyID = creds.AccessKeyID := rfl
      have hgtok : osGetenv (envOfExport creds) sessionToken = creds.SessionToken := rfl
      have hgexp : osGetenv (envOfExport creds) sessionExpiresAt =
          formatRFC3339 creds.Expires := rfl
      have hfne : formatRFC3339 creds.Expires ≠ "" := by
        intro hempty
        rw [hempty] at hrt
        exact Option.noConfusion ((show parseRFC3339 "" = none from rfl) ▸ hrt)
      unfold expiryCmd
      rw [hgak, hgtok, hgexp, if_neg hak, if_neg htok, if_neg hfne, hrt]
    · exact instant_fromInstant loc _

theorem export_expiry_roundtrip_witness :
    setStmt sessionExpiresAt (formatRFC3339 credsW.Expires) ∈ listsW.1 ∧
    ∃ t, parseRFC3339 (formatRFC3339 credsW.Expires) = some t ∧
      instant t = instant credsW.Expires ∧
      expiryCmd (envOfExport credsW) utcZone = .ok (formatRFC1123 (toLocal utcZone t)) ∧
      instant (toLocal utcZone t) = instant credsW.Expires :=
  export_expiry_roundtrip credsW "" dataW listsW utcZone (by decide) (by decide)
    (by decide) (by decide)
